import Mathlib

/-!
Shallow embedding of `src/dsp/modules/llm.py` (the `LLM` completion client,
called CompletionClient in the specification).

Modelling conventions:
* Python `Optional[T]` fields become `Option T`; Python truthiness of an
  optional list (`if not xs`) is "none or empty".
* The external provider `litellm.completion` is a parameter
  `provider : Provider`; it receives the keyword-argument map of the call
  site and returns either a `ModelResponse` or an error string.
* Python keyword-argument passing `f(**a, **b)` raises a `TypeError`
  ("got multiple values for keyword argument k") when a key of `b` already
  occurs in `a`; `mergeCallKwargs` models that call-site semantics.
* A Python dict whose set of keys varies (the `DSPyModelResponse` output
  dict, which may or may not carry a "logprobs" key) is modelled with a
  doubly-optional field: `Option.none` means the key is absent,
  `some v` means the key is present with value `v` (where `v = Option.none`
  models the Python value `None`).
* Stateful methods of `LLM` become functions from an `LLMState` to a result
  paired with the updated `LLMState`.
-/

/-- A role/content pair (`ChatMessage` of `dsp/modules/schemas.py`). -/
structure ChatMessage where
  role : String
  content : String
deriving DecidableEq, Repr

/-- Opaque per-choice log-probability payload (litellm `ChoiceLogprobs`).
The content is irrelevant to the client; a token list stands in for it.
A present payload object is truthy in Python, `None` is falsy, so Python
truthiness of the `logprobs` attribute is `Option.isSome` here. -/
structure LogProbs where
  tokens : List String
deriving DecidableEq, Repr

/-- The `message` sub-object of a litellm `Choices` (only `content` is read). -/
structure ChoiceMessage where
  content : String
deriving DecidableEq, Repr

/-- One provider choice: completion text, optional finish reason, optional
log-probability data (litellm `Choices`). -/
structure Choices where
  finish_reason : Option String
  message : ChoiceMessage
  logprobs : Option LogProbs
deriving DecidableEq, Repr

/-- Token-usage record of a provider response (litellm `Usage`). -/
structure Usage where
  total_tokens : Nat
deriving DecidableEq, Repr

/-- A provider response: choices plus optional usage (litellm `ModelResponse`,
restricted to the fields the client reads). -/
structure ModelResponse where
  choices : List Choices
  usage : Option Usage
deriving DecidableEq, Repr

/-- A serialized parameter value (an entry of the keyword-argument map sent
to the provider, or of a serialized configuration). -/
inductive JVal where
  | str : String → JVal
  | bool : Bool → JVal
  | int : Int → JVal
  | null : JVal
  | messages : List ChatMessage → JVal
deriving DecidableEq, Repr

/-- The request configuration (`LLMModelParams` of `dsp/modules/schemas.py`,
restricted to the fields `llm.py` reads or writes, plus an opaque
passthrough list `extra` for the remaining provider-specific parameters
and a sensitive `api_key` used to model redaction). -/
structure LLMModelParams where
  model : String
  api_key : Option String
  prompt : Option String
  messages : Option (List ChatMessage)
  only_completed : Bool
  return_sorted : Bool
  logprobs : Bool
  extra : List (String × JVal)
deriving DecidableEq, Repr

/-- Modelled from the spec: `LLMModelParams.to_json` lives in
`dsp/modules/schemas.py`, which is not part of the sources; per the spec
(§4.1 step 3) the configuration is serialized into the parameter map
submitted to the provider. Each field becomes one keyed entry; the opaque
provider-specific parameters pass through unchanged. -/
def LLMModelParams.to_json (p : LLMModelParams) : List (String × JVal) :=
  [("model", JVal.str p.model),
   ("api_key", match p.api_key with
     | some k => JVal.str k
     | Option.none => JVal.null),
   ("prompt", match p.prompt with
     | some s => JVal.str s
     | Option.none => JVal.null),
   ("messages", match p.messages with
     | some ms => JVal.messages ms
     | Option.none => JVal.null),
   ("only_completed", JVal.bool p.only_completed),
   ("return_sorted", JVal.bool p.return_sorted),
   ("logprobs", JVal.bool p.logprobs)]
  ++ p.extra

/-- Modelled from the spec: the `ignore_sensitive=True` serialization used
for history entries (spec §4.1 step 4: "the configuration serialized with
sensitive fields (credentials/secrets) omitted"). Identical to `to_json`
except that the sensitive `api_key` entry is dropped. -/
def LLMModelParams.to_json_redacted (p : LLMModelParams) : List (String × JVal) :=
  [("model", JVal.str p.model),
   ("prompt", match p.prompt with
     | some s => JVal.str s
     | Option.none => JVal.null),
   ("messages", match p.messages with
     | some ms => JVal.messages ms
     | Option.none => JVal.null),
   ("only_completed", JVal.bool p.only_completed),
   ("return_sorted", JVal.bool p.return_sorted),
   ("logprobs", JVal.bool p.logprobs)]
  ++ p.extra

/-- One history entry appended by `basic_request`. -/
structure HistoryEntry where
  prompt : String
  response : ModelResponse
  raw_kwargs : List (String × JVal)
  kwargs : List (String × JVal)
deriving DecidableEq, Repr

/-- The mutable state of one `LLM` client: its configuration and its
history log (for single-instance reasoning; the cross-instance sharing of
the class-level `history` attribute is modelled separately by `PyWorld`). -/
structure LLMState where
  llm_params : LLMModelParams
  history : List HistoryEntry
deriving DecidableEq, Repr

/-- An output record (`DSPyModelResponse`): a dict with a required "text"
key and an optional "logprobs" key. `logprobs = Option.none` means the key
is absent from the dict; `logprobs = some v` means the key is present with
value `v` (`v = Option.none` being the Python value `None`). -/
structure DSPyModelResponse where
  text : String
  logprobs : Option (Option LogProbs) := Option.none
deriving DecidableEq, Repr

/-- Errors a call can surface: the call-site `TypeError` for a duplicated
keyword argument, an `AssertionError`, or an error raised by the provider. -/
inductive CallError where
  | duplicateKeyword : String → CallError
  | assertionError : String → CallError
  | providerError : String → CallError
deriving DecidableEq, Repr

/-- The external completion provider (`litellm.completion`): consumes the
keyword-argument map of the call site, produces a response or an error. -/
def Provider : Type :=
  List (String × JVal) → Except String ModelResponse

/-- Python call-site semantics of `litellm.completion(**cfg, **kwargs)`:
if some key of `kwargs` already occurs among the keys of `cfg`, the call
raises `TypeError: got multiple values for keyword argument k` before the
callee runs; otherwise the callee receives the union of both maps. -/
def mergeCallKwargs (cfg kwargs : List (String × JVal)) :
    Except CallError (List (String × JVal)) :=
  match kwargs.find? (fun kv => cfg.any (fun cv => cv.1 == kv.1)) with
  | some kv => Except.error (CallError.duplicateKeyword kv.1)
  | Option.none => Except.ok (cfg ++ kwargs)

/-- Embeds `LLM.update_messages_with_prompt`: overwrite `prompt`, initialize
`messages` to `[]` when it is falsy (`None` or empty), append a user
message with the prompt text. -/
def update_messages_with_prompt (p : LLMModelParams) (prompt : String) :
    LLMModelParams :=
  let msgs := match p.messages with
    | Option.none => []
    | some ms => ms
  { p with
    prompt := some prompt,
    messages := some (msgs ++ [{ role := "user", content := prompt }]) }

/-- Embeds `LLM.basic_request`: update the messages with the prompt, submit the
serialized configuration together with the extra keyword arguments to the
provider, and on success append a history entry. The message/prompt
mutation persists even when the call fails (it happens first and is not
rolled back). -/
def basic_request (provider : Provider) (s : LLMState) (prompt : String)
    (kwargs : List (String × JVal)) :
    Except CallError ModelResponse × LLMState :=
  let params := update_messages_with_prompt s.llm_params prompt
  let s1 : LLMState := { s with llm_params := params }
  match mergeCallKwargs params.to_json kwargs with
  | Except.error e => (Except.error e, s1)
  | Except.ok merged =>
    match provider merged with
    | Except.error e => (Except.error (CallError.providerError e), s1)
    | Except.ok response =>
      (Except.ok response,
       { s1 with
         history := s1.history ++
           [{ prompt := prompt, response := response, raw_kwargs := kwargs,
              kwargs := params.to_json_redacted }] })

/-- Embeds `LLM.request`: delegates to `basic_request` (caching unimplemented). -/
def request (provider : Provider) (s : LLMState) (prompt : String)
    (kwargs : List (String × JVal)) :
    Except CallError ModelResponse × LLMState :=
  basic_request provider s prompt kwargs

/-- Embeds `LLM.log_usage`: reads the optional usage record and logs the total
token count; the side effect is modelled as the value logged, `Option.none`
when usage data is absent (silently skipped, never an error). -/
def log_usage (response : ModelResponse) : Option Nat :=
  match response.usage with
  | some usage_data => some usage_data.total_tokens
  | Option.none => Option.none

/-- Embeds `LLM.filter_only_completed`: keep the choices whose finish reason is
not "length"; if that keeps none, return the original list instead. -/
def filter_only_completed (choices : List Choices) : List Choices :=
  let filtered_choices :=
    choices.filter (fun c => c.finish_reason ≠ some "length")
  if filtered_choices.length ≠ 0 then filtered_choices else choices

/-- Embeds `LLM.get_text_from_choice`: the text of a choice. -/
def get_text_from_choice (choice : Choices) : String :=
  choice.message.content

/-- Embeds `LLM.transform_choices_to_dspy_model_response`: build one output dict
per choice, with the "text" key always present; when `add_logprobs` is
set, a "logprobs" key is also written, holding the choice's logprobs when
that attribute is truthy and `None` otherwise. -/
def transform_choices_to_dspy_model_response (choices : List Choices)
    (add_logprobs : Bool) : List DSPyModelResponse :=
  choices.map (fun choice =>
    let base : DSPyModelResponse := { text := get_text_from_choice choice }
    if add_logprobs then
      { base with
        logprobs := some (match choice.logprobs with
          | some lp => some lp
          | Option.none => Option.none) }
    else base)

/-- Embeds `LLM.__call__` (the `invoke` entry point): store the `only_completed`
argument into the configuration, assert the supported flag combination,
perform the request, log usage, filter when `only_completed` is set, and
transform the surviving choices. -/
def LLM_call (provider : Provider) (s : LLMState) (prompt : String)
    (only_completed : Bool) (kwargs : List (String × JVal)) :
    Except CallError (List DSPyModelResponse) × LLMState :=
  let params0 := { s.llm_params with only_completed := only_completed }
  let s0 : LLMState := { s with llm_params := params0 }
  if params0.only_completed = false then
    (Except.error (CallError.assertionError "for now"), s0)
  else if params0.return_sorted = true then
    (Except.error (CallError.assertionError "for now"), s0)
  else
    match request provider s0 prompt kwargs with
    | (Except.error e, s1) => (Except.error e, s1)
    | (Except.ok response, s1) =>
      let _ := log_usage response
      let chosen := if s1.llm_params.only_completed then
          filter_only_completed response.choices
        else response.choices
      (Except.ok
        (transform_choices_to_dspy_model_response chosen
          s1.llm_params.logprobs),
       s1)

/-- N sequential `invoke` calls with the default `only_completed = true`
and no extra keyword arguments, threading the client state. -/
def invoke_seq (provider : Provider) (s : LLMState) (prompts : List String) :
    LLMState :=
  prompts.foldl (fun t p => (LLM_call provider t p true []).2) s

/-- Whether an `Except` value is a success. -/
def exceptOk {e a : Type} : Except e a → Bool
  | Except.ok _ => true
  | Except.error _ => false

/-!
Cross-instance model for the `history` attribute.

In the source, `LLM` declares `history: list[dict[str, Any]] = []` at class
level and `__init__` assigns only `self.llm_params`. Python attribute
semantics: `self.history.append(...)` finds no instance attribute named
`history`, falls back to the class attribute, and mutates that single list
object in place. No code ever assigns `self.history`, so every instance of
`LLM` in the interpreter reads and mutates the same list. `PyWorld` models
one interpreter: the one class-level list plus the per-instance
`llm_params` attributes, with instances identified by their index of
creation.
-/

/-- One Python interpreter holding the `LLM` class object and its
instances: `class_history` is the single list object bound to the class
attribute `history`; `instances` holds each instance's own `llm_params`. -/
structure PyWorld where
  class_history : List HistoryEntry
  instances : List LLMModelParams
deriving DecidableEq, Repr

/-- Embeds `LLM(llm_params)`: constructing an instance assigns `self.llm_params`
and nothing else; the result is the new world and the instance's index. -/
def LLM_new (w : PyWorld) (params : LLMModelParams) : PyWorld × Nat :=
  ({ w with instances := w.instances ++ [params] }, w.instances.length)

/-- Reading `inst.history`: the instance has no such attribute of its own,
so the lookup resolves to the class attribute, for every instance. -/
def history_of (w : PyWorld) (_i : Nat) : List HistoryEntry :=
  w.class_history

/-- Embeds `basic_request` executed on instance `i` of a world: updates that
instance's `llm_params` and, on success, appends to the class-level
history list shared by all instances. -/
def basic_request_world (provider : Provider) (w : PyWorld) (i : Nat)
    (prompt : String) (kwargs : List (String × JVal)) :
    Except CallError ModelResponse × PyWorld :=
  match w.instances.get? i with
  | Option.none => (Except.error (CallError.assertionError "no such instance"), w)
  | some params0 =>
    let params := update_messages_with_prompt params0 prompt
    let w1 : PyWorld := { w with instances := w.instances.set i params }
    match mergeCallKwargs params.to_json kwargs with
    | Except.error e => (Except.error e, w1)
    | Except.ok merged =>
      match provider merged with
      | Except.error e => (Except.error (CallError.providerError e), w1)
      | Except.ok response =>
        (Except.ok response,
         { w1 with
           class_history := w1.class_history ++
             [{ prompt := prompt, response := response, raw_kwargs := kwargs,
                kwargs := params.to_json_redacted }] })

/-!
Concrete sample values for witnesses and counterexamples.
-/

/-- A configuration with all flags in the supported combination. -/
def sampleParams : LLMModelParams :=
  { model := "gpt-test", api_key := some "sk-secret", prompt := Option.none,
    messages := Option.none, only_completed := true, return_sorted := false,
    logprobs := false, extra := [] }

/-- A fresh client state holding `sampleParams` and an empty history. -/
def sampleState : LLMState :=
  { llm_params := sampleParams, history := [] }

/-- A choice that finished naturally, carrying no log-probability data. -/
def choiceStopB : Choices :=
  { finish_reason := some "stop", message := { content := "B" },
    logprobs := Option.none }

/-- A choice truncated by the length limit. -/
def choiceLenA : Choices :=
  { finish_reason := some "length", message := { content := "A" },
    logprobs := Option.none }

/-- A provider that always succeeds with the single choice `choiceStopB`
and no usage data. -/
def providerOk : Provider :=
  fun _ => Except.ok { choices := [choiceStopB], usage := Option.none }

/-- A provider that always fails. -/
def providerFail : Provider :=
  fun _ => Except.error "network"

/-- A second configuration, for a second client instance. -/
def sampleParamsB : LLMModelParams :=
  { sampleParams with model := "gpt-test-b" }

/-- A client state whose configuration has `return_sorted = true`. -/
def sortedState : LLMState :=
  { llm_params := { sampleParams with return_sorted := true }, history := [] }

/-- A fresh interpreter after constructing one client `A = LLM(sampleParams)`
(instance index 0). -/
def worldA : PyWorld :=
  (LLM_new { class_history := [], instances := [] } sampleParams).1

/-- The interpreter after one successful `basic_request` on client A
followed by constructing a second client `B = LLM(sampleParamsB)`
(instance index 1). -/
def worldAB : PyWorld :=
  (LLM_new (basic_request_world providerOk worldA 0 "p1" []).2 sampleParamsB).1

/-!
Helper lemmas shared between the claim theorems.
-/

/-- The function `transform_choices_to_dspy_model_response` is a per-choice map: the
text is the choice's message content and the "logprobs" key is present
exactly when `add_logprobs` is set, holding the choice's optional
log-probability data. -/
lemma transform_eq_map (choices : List Choices) (add_logprobs : Bool) :
    transform_choices_to_dspy_model_response choices add_logprobs
      = choices.map (fun c =>
          { text := c.message.content,
            logprobs := if add_logprobs then some c.logprobs
              else Option.none }) := by
  unfold transform_choices_to_dspy_model_response get_text_from_choice
  congr 1
  funext c
  cases add_logprobs <;> cases hc : c.logprobs <;> simp [hc]

/-- The filter fallback never produces an empty list from a non-empty one. -/
lemma filter_only_completed_ne_nil (choices : List Choices)
    (h : choices ≠ []) : filter_only_completed choices ≠ [] := by
  simp only [filter_only_completed]
  split
  · next hlen =>
    intro hnil
    rw [hnil] at hlen
    exact hlen rfl
  · exact h

/-- The filtered list is always a sublist of the input (in particular the
surviving choices keep their relative order). -/
lemma filter_only_completed_sublist (choices : List Choices) :
    List.Sublist (filter_only_completed choices) choices := by
  simp only [filter_only_completed]
  split
  · exact List.filter_sublist choices
  · exact List.Sublist.refl choices

/-- Filtering a list twice with the same Boolean predicate equals
filtering it once. -/
lemma filter_twice {α : Type} (l : List α) (p : α → Bool) :
    (l.filter p).filter p = l.filter p := by
  induction l with
  | nil => rfl
  | cons a t ih =>
    by_cases hpa : p a <;> simp [List.filter_cons, hpa, ih]

/-- C2 (corrected): with the `logprobs` flag set and a source choice that
carries no log-probability data, the output record's "logprobs" key is
present and holds the Python value `None` — the claim's demand that the
key be entirely absent in that case fails. -/
theorem logprobs_present_with_null_counterexample :
    transform_choices_to_dspy_model_response [choiceStopB] true
      = [{ text := "B", logprobs := some Option.none }] ∧
    (some Option.none : Option (Option LogProbs)) ≠ Option.none := by
  exact ⟨rfl, by simp⟩

/-- C2 (amended): the "logprobs" key of an output record is present if and
only if the `logprobs` flag is set; when present it holds the source
choice's log-probability data, or `None` when the choice carries none;
when the flag is unset the key is absent. The text is always the choice's
message content. -/
theorem logprobs_field_iff_flag (choices : List Choices) (flag : Bool) :
    transform_choices_to_dspy_model_response choices flag
      = choices.map (fun c =>
          { text := c.message.content,
            logprobs := if flag then some c.logprobs else Option.none }) ∧
    ∀ d ∈ transform_choices_to_dspy_model_response choices flag,
      (d.logprobs ≠ Option.none ↔ flag = true) := by
  constructor
  · exact transform_eq_map choices flag
  · intro d hd
    rw [transform_eq_map] at hd
    rcases List.mem_map.1 hd with ⟨c, _, rfl⟩
    cases flag <;> simp

/-- C8: whenever at least one choice has a finish reason other than
"length", `filter_only_completed` keeps exactly the choices whose finish
reason differs from "length"; on the concrete input
`[choiceLenA, choiceStopB]` the result is exactly `[choiceStopB]`. -/
theorem filter_normal_case :
    (∀ choices : List Choices,
        (∃ c ∈ choices, c.finish_reason ≠ some "length") →
        filter_only_completed choices
          = choices.filter (fun c => c.finish_reason ≠ some "length")) ∧
    filter_only_completed [choiceLenA, choiceStopB] = [choiceStopB] := by
  constructor
  · intro choices hex
    rcases hex with ⟨c, hc, hne⟩
    have hmem : c ∈ choices.filter
        (fun c => decide (c.finish_reason ≠ some "length")) :=
      List.mem_filter.2 ⟨hc, by simpa using hne⟩
    have hlen : (choices.filter
        (fun c => decide (c.finish_reason ≠ some "length"))).length ≠ 0 := by
      intro h0
      rw [List.length_eq_zero] at h0
      rw [h0] at hmem
      exact List.not_mem_nil c hmem
    simp only [filter_only_completed]
    rw [if_pos hlen]
  · rfl

/-- C8 witness: the general part of `filter_normal_case` applied at the
concrete input `[choiceLenA, choiceStopB]`, which contains the
non-truncated choice `choiceStopB`. -/
theorem filter_normal_case_witness :
    filter_only_completed [choiceLenA, choiceStopB]
      = [choiceLenA, choiceStopB].filter
          (fun c => c.finish_reason ≠ some "length") :=
  filter_normal_case.1 [choiceLenA, choiceStopB]
    ⟨choiceStopB, by decide, by decide⟩

/-- C9: the transformation maps each surviving choice to a record whose
text is that choice's message content, in the same relative order (it is a
per-element map, and the filter itself is a sublist, hence re-sorts
nothing). -/
theorem transform_preserves_order_and_text :
    (∀ (choices : List Choices) (flag : Bool),
        (transform_choices_to_dspy_model_response choices flag).map
            DSPyModelResponse.text
          = choices.map (fun c => c.message.content)) ∧
    (∀ choices : List Choices,
        List.Sublist (filter_only_completed choices) choices) := by
  constructor
  · intro choices flag
    rw [transform_eq_map, List.map_map]
    rfl
  · exact filter_only_completed_sublist

/-- C10: `filter_only_completed` is idempotent. -/
theorem filter_idempotent (choices : List Choices) :
    filter_only_completed (filter_only_completed choices)
      = filter_only_completed choices := by
  simp only [filter_only_completed]
  by_cases h : (choices.filter
      (fun c => decide (c.finish_reason ≠ some "length"))).length ≠ 0
  · simp only [if_pos h]
    rw [filter_twice]
    rw [if_pos h]
  · simp only [if_neg h]

/-- After one `LLM_call` with `only_completed = true` on a state whose
configuration has `return_sorted = false`, the configuration equals the
message-updated configuration, whatever the provider did. -/
lemma LLM_call_params (provider : Provider) (s : LLMState) (prompt : String)
    (kwargs : List (String × JVal))
    (hrs : s.llm_params.return_sorted = false) :
    ((LLM_call provider s prompt true kwargs).2).llm_params
      = update_messages_with_prompt
          { s.llm_params with only_completed := true } prompt := by
  simp only [LLM_call, request, basic_request]
  rw [if_neg (by simp)]
  rw [if_neg (by simp [hrs])]
  cases hm : mergeCallKwargs
      (update_messages_with_prompt
        { s.llm_params with only_completed := true } prompt).to_json kwargs with
  | error e => simp
  | ok merged =>
    cases hp : provider merged with
    | error e => simp [hp]
    | ok response => simp [hp]

/-- The function `basic_request` grows the history by exactly one entry on success and
by none on failure, always by appending at the end. -/
lemma basic_request_history (provider : Provider) (s : LLMState)
    (prompt : String) (kwargs : List (String × JVal)) :
    ∃ tail,
      ((basic_request provider s prompt kwargs).2).history
          = s.history ++ tail ∧
      tail.length
        = (if exceptOk (basic_request provider s prompt kwargs).1
            then 1 else 0) := by
  rcases hm : mergeCallKwargs
      (update_messages_with_prompt s.llm_params prompt).to_json kwargs with
    e | merged
  · refine ⟨[], ?_, ?_⟩ <;> simp [basic_request, hm, exceptOk]
  · rcases hp : provider merged with e | response
    · refine ⟨[], ?_, ?_⟩ <;> simp [basic_request, hm, hp, exceptOk]
    · refine ⟨[{ prompt := prompt, response := response, raw_kwargs := kwargs,
                 kwargs := (update_messages_with_prompt s.llm_params
                   prompt).to_json_redacted }], ?_, ?_⟩ <;>
        simp [basic_request, hm, hp, exceptOk]

/-- The function `LLM_call` grows the history by exactly one entry on success and by
none on failure, always by appending at the end. -/
lemma LLM_call_history (provider : Provider) (s : LLMState) (prompt : String)
    (oc : Bool) (kwargs : List (String × JVal)) :
    ∃ tail,
      ((LLM_call provider s prompt oc kwargs).2).history
          = s.history ++ tail ∧
      tail.length
        = (if exceptOk (LLM_call provider s prompt oc kwargs).1
            then 1 else 0) := by
  cases oc with
  | false => refine ⟨[], ?_, ?_⟩ <;> simp [LLM_call, exceptOk]
  | true =>
    by_cases hrs : s.llm_params.return_sorted = true
    · refine ⟨[], ?_, ?_⟩ <;> simp [LLM_call, hrs, exceptOk]
    · obtain ⟨tail, h1, h2⟩ := basic_request_history provider
        { s with llm_params := { s.llm_params with only_completed := true } }
        prompt kwargs
      rcases hbr : basic_request provider
          { s with llm_params :=
              { s.llm_params with only_completed := true } } prompt kwargs with
        ⟨res, s1⟩
      rw [hbr] at h1 h2
      simp at h1
      simp [exceptOk] at h2
      rcases res with e | r
      · refine ⟨tail, ?_, ?_⟩
        · simp only [LLM_call, request, hbr]
          simp [hrs, exceptOk, h1]
        · simp only [LLM_call, request, hbr]
          simp [hrs, exceptOk] at h2 ⊢
          simp [h2]
      · refine ⟨tail, ?_, ?_⟩
        · simp only [LLM_call, request, hbr]
          simp [hrs, exceptOk, h1]
        · simp only [LLM_call, request, hbr]
          simp [hrs, exceptOk] at h2 ⊢
          simp [h2]

/-- C5: when the configuration has `return_sorted = true`, or the
`only_completed` argument stored into the configuration is `false`, the
call fails with the `AssertionError` and the resulting state differs from
the initial one only in the stored `only_completed` flag: the history is
unchanged, the messages are unchanged, and the result does not depend on
the provider (no provider call was made). -/
theorem precondition_fails_before_provider_call (provider : Provider)
    (s : LLMState) (prompt : String) (oc : Bool)
    (kwargs : List (String × JVal))
    (h : s.llm_params.return_sorted = true ∨ oc = false) :
    LLM_call provider s prompt oc kwargs
      = (Except.error (CallError.assertionError "for now"),
         { s with llm_params := { s.llm_params with only_completed := oc } }) := by
  rcases h with h | h
  · cases oc with
    | false => simp [LLM_call]
    | true => simp [LLM_call, h]
  · subst h
    simp [LLM_call]

/-- C5 witness: the precondition theorem applied to the concrete state
`sortedState` (whose configuration has `return_sorted = true`), with the
concrete provider `providerOk`. -/
theorem precondition_fails_witness :
    LLM_call providerOk sortedState "hi" true []
      = (Except.error (CallError.assertionError "for now"),
         { sortedState with llm_params :=
             { sortedState.llm_params with only_completed := true } }) :=
  precondition_fails_before_provider_call providerOk sortedState "hi" true []
    (Or.inl (by rfl))

/-- C7: per call, the history grows by exactly one entry when the provider
call succeeds and by zero entries when anything fails, and the previous
entries are preserved unchanged as a prefix (never reordered, edited or
removed); this holds both for the `invoke` entry point and for the
underlying `basic_request`, the only operations that touch the history. -/
theorem history_append_only :
    (∀ (provider : Provider) (s : LLMState) (prompt : String) (oc : Bool)
        (kwargs : List (String × JVal)),
      ∃ tail,
        ((LLM_call provider s prompt oc kwargs).2).history
            = s.history ++ tail ∧
        tail.length
          = (if exceptOk (LLM_call provider s prompt oc kwargs).1
              then 1 else 0)) ∧
    (∀ (provider : Provider) (s : LLMState) (prompt : String)
        (kwargs : List (String × JVal)),
      ∃ tail,
        ((basic_request provider s prompt kwargs).2).history
            = s.history ++ tail ∧
        tail.length
          = (if exceptOk (basic_request provider s prompt kwargs).1
              then 1 else 0)) :=
  ⟨fun provider s prompt oc kwargs =>
      LLM_call_history provider s prompt oc kwargs,
   fun provider s prompt kwargs =>
      basic_request_history provider s prompt kwargs⟩

/-- When no key of `kwargs` occurs among the keys of `cfg`, the call-site
merge succeeds with the two maps concatenated. -/
lemma merge_no_collision (cfg kwargs : List (String × JVal))
    (h : ∀ kv ∈ kwargs, ∀ cv ∈ cfg, kv.1 ≠ cv.1) :
    mergeCallKwargs cfg kwargs = Except.ok (cfg ++ kwargs) := by
  have hnone : kwargs.find?
      (fun kv => cfg.any (fun cv => cv.1 == kv.1)) = Option.none := by
    rw [List.find?_eq_none]
    intro kv hkv
    simp only [List.any_eq_true, beq_iff_eq]
    rintro ⟨cv, hcv, hEq⟩
    exact h kv hkv cv hcv hEq.symm
  simp [mergeCallKwargs, hnone]

/-- When some key of `kwargs` occurs among the keys of `cfg`, the call-site
merge raises a duplicated-keyword error. -/
lemma merge_collision (cfg kwargs : List (String × JVal))
    (h : ∃ kv ∈ kwargs, ∃ cv ∈ cfg, kv.1 = cv.1) :
    ∃ k, mergeCallKwargs cfg kwargs
        = Except.error (CallError.duplicateKeyword k) := by
  obtain ⟨kv, hkv, cv, hcv, hEq⟩ := h
  have hsome : (kwargs.find?
      (fun kv => cfg.any (fun cv => cv.1 == kv.1))).isSome := by
    rw [List.find?_isSome]
    refine ⟨kv, hkv, ?_⟩
    simp only [List.any_eq_true, beq_iff_eq]
    exact ⟨cv, hcv, hEq.symm⟩
  rcases hfind : kwargs.find?
      (fun kv => cfg.any (fun cv => cv.1 == kv.1)) with _ | kv2
  · rw [hfind] at hsome
    simp at hsome
  · exact ⟨kv2.1, by simp [mergeCallKwargs, hfind]⟩

/-- C1 (corrected): a key collision between the serialized configuration
and the extra parameters does not let the extra parameter win — the call
raises the duplicated-keyword `TypeError` at the call site, even though
the provider (`providerOk`) would have succeeded. -/
theorem extra_params_collision_fails :
    (LLM_call providerOk sampleState "hi" true
        [("model", JVal.str "other")]).1
      = Except.error (CallError.duplicateKeyword "model") := by
  rfl

/-- C1 (amended): when the extra parameters' keys are disjoint from the
serialized configuration's keys, the provider receives exactly the
serialized configuration with the extra parameters appended; when any key
collides, the call fails with a duplicated-keyword error before the
provider is invoked (the result does not depend on the provider). -/
theorem extra_params_merge_semantics :
    (∀ (provider : Provider) (s : LLMState) (prompt : String)
        (kwargs : List (String × JVal)),
      (∀ kv ∈ kwargs,
        ∀ cv ∈ (update_messages_with_prompt s.llm_params prompt).to_json,
          kv.1 ≠ cv.1) →
      (basic_request provider s prompt kwargs).1
        = (match provider
              ((update_messages_with_prompt s.llm_params prompt).to_json
                ++ kwargs) with
           | Except.ok r => Except.ok r
           | Except.error e => Except.error (CallError.providerError e))) ∧
    (∀ (provider : Provider) (s : LLMState) (prompt : String)
        (kwargs : List (String × JVal)),
      (∃ kv ∈ kwargs,
        ∃ cv ∈ (update_messages_with_prompt s.llm_params prompt).to_json,
          kv.1 = cv.1) →
      ∃ k, (basic_request provider s prompt kwargs).1
          = Except.error (CallError.duplicateKeyword k)) := by
  constructor
  · intro provider s prompt kwargs hdisj
    have hm := merge_no_collision
      (update_messages_with_prompt s.llm_params prompt).to_json kwargs hdisj
    simp only [basic_request, hm]
    rcases hp : provider
        ((update_messages_with_prompt s.llm_params prompt).to_json
          ++ kwargs) with e | r <;> simp [hp]
  · intro provider s prompt kwargs hcol
    obtain ⟨k, hk⟩ := merge_collision
      (update_messages_with_prompt s.llm_params prompt).to_json kwargs hcol
    exact ⟨k, by simp [basic_request, hk]⟩

/-- C1 witness: the disjoint part of `extra_params_merge_semantics` at the
concrete state `sampleState` with the fresh key "temperature", evaluated
against `providerOk`. -/
theorem extra_params_merge_semantics_witness :
    (basic_request providerOk sampleState "hi"
        [("temperature", JVal.int 0)]).1
      = Except.ok { choices := [choiceStopB], usage := Option.none } := by
  have h := extra_params_merge_semantics.1 providerOk sampleState "hi"
    [("temperature", JVal.int 0)] (by decide)
  rw [h]
  rfl

/-- C3 (code bug): `history` is declared as a class-level attribute, so
the single list object is shared by every instance. After client A
(instance 0) performs one successful `basic_request` and client B
(instance 1) is then constructed, B's history already holds A's entry —
it is neither empty immediately after construction nor separate from A's
history. -/
theorem history_shared_across_instances :
    exceptOk (basic_request_world providerOk worldA 0 "p1" []).1 = true ∧
    (history_of worldAB 1).length = 1 ∧
    history_of worldAB 1 = history_of worldAB 0 := by
  exact ⟨rfl, rfl, rfl⟩

/-- The function `basic_request` installs the message-updated configuration whatever
the outcome of the call. -/
lemma basic_request_params (provider : Provider) (s : LLMState)
    (prompt : String) (kwargs : List (String × JVal)) :
    ((basic_request provider s prompt kwargs).2).llm_params
      = update_messages_with_prompt s.llm_params prompt := by
  rcases hm : mergeCallKwargs
      (update_messages_with_prompt s.llm_params prompt).to_json kwargs with
    e | merged
  · simp [basic_request, hm]
  · rcases hp : provider merged with e | r
    · simp [basic_request, hm, hp]
    · simp [basic_request, hm, hp]

/-- A successful `basic_request` comes from a successful provider call
returning the same response. -/
lemma basic_request_ok_provider (provider : Provider) (s : LLMState)
    (prompt : String) (kwargs : List (String × JVal)) (r : ModelResponse)
    (s2 : LLMState)
    (h : basic_request provider s prompt kwargs = (Except.ok r, s2)) :
    ∃ merged, provider merged = Except.ok r := by
  rcases hm : mergeCallKwargs
      (update_messages_with_prompt s.llm_params prompt).to_json kwargs with
    e | merged
  · simp [basic_request, hm] at h
  · rcases hp : provider merged with e | r2
    · simp [basic_request, hm, hp] at h
    · simp [basic_request, hm, hp] at h
      exact ⟨merged, by rw [hp, h.1]⟩

/-- C4: when every choice was truncated ("length"), the filter is
discarded and the original list is returned; consequently a successful
`invoke` against a provider that returns a non-empty choice list never
returns an empty sequence. -/
theorem filter_fallback_never_empty :
    (∀ choices : List Choices, choices ≠ [] →
        (∀ c ∈ choices, c.finish_reason = some "length") →
        filter_only_completed choices = choices) ∧
    (∀ (provider : Provider) (s : LLMState) (prompt : String)
        (kwargs : List (String × JVal)) (out : List DSPyModelResponse)
        (s1 : LLMState),
      (∀ ps r, provider ps = Except.ok r → r.choices ≠ []) →
      LLM_call provider s prompt true kwargs = (Except.ok out, s1) →
      out ≠ []) := by
  constructor
  · intro choices hne hall
    have hnil : choices.filter
        (fun c => decide (c.finish_reason ≠ some "length")) = [] := by
      rw [List.filter_eq_nil_iff]
      intro c hc
      simp [hall c hc]
    simp only [filter_only_completed, hnil]
    simp
  · intro provider s prompt kwargs out s1 hprov hcall
    by_cases hrs : s.llm_params.return_sorted = true
    · simp [LLM_call, hrs] at hcall
    · rcases hbr : basic_request provider
          { s with llm_params :=
              { s.llm_params with only_completed := true } } prompt kwargs with
        ⟨res, s2⟩
      have hps : s2.llm_params
          = update_messages_with_prompt
              { s.llm_params with only_completed := true } prompt := by
        have h := basic_request_params provider
          { s with llm_params :=
              { s.llm_params with only_completed := true } } prompt kwargs
        rw [hbr] at h
        simpa using h
      rcases res with e | r
      · simp only [LLM_call, request, hbr] at hcall
        simp [hrs] at hcall
      · obtain ⟨merged, hpm⟩ := basic_request_ok_provider provider
          { s with llm_params :=
              { s.llm_params with only_completed := true } }
          prompt kwargs r s2 hbr
        have hcne : r.choices ≠ [] := hprov merged r hpm
        simp only [LLM_call, request, hbr] at hcall
        rw [hps] at hcall
        simp [hrs, update_messages_with_prompt] at hcall
        intro hout
        rw [hout] at hcall
        have h1 := hcall.1
        rw [transform_eq_map, List.map_eq_nil_iff] at h1
        exact filter_only_completed_ne_nil r.choices hcne h1

/-- C4 witness: the fallback part at the concrete all-truncated list
`[choiceLenA]`, and the non-emptiness part at a concrete successful call
against `providerOk` (whose responses always carry one choice). -/
theorem filter_fallback_never_empty_witness :
    filter_only_completed [choiceLenA] = [choiceLenA] ∧
    ([{ text := "B" }] : List DSPyModelResponse) ≠ [] := by
  constructor
  · exact filter_fallback_never_empty.1 [choiceLenA] (by decide) (by decide)
  · exact filter_fallback_never_empty.2 providerOk sampleState "hi" []
      [{ text := "B" }] ((LLM_call providerOk sampleState "hi" true []).2)
      (fun ps r hr => by
        injection hr with h
        rw [← h]
        simp)
      (by rfl)

/-- One `invoke` call with `only_completed = true` on a `return_sorted =
false` state appends exactly one user message with the prompt text,
overwrites the `prompt` field, and keeps `return_sorted` false. -/
lemma invoke_step_messages (provider : Provider) (s : LLMState)
    (p : String) (hrs : s.llm_params.return_sorted = false) :
    ((LLM_call provider s p true []).2).llm_params.messages
        = some ((s.llm_params.messages.getD [])
            ++ [{ role := "user", content := p }]) ∧
    ((LLM_call provider s p true []).2).llm_params.prompt = some p ∧
    ((LLM_call provider s p true []).2).llm_params.return_sorted = false := by
  rw [LLM_call_params provider s p [] hrs]
  refine ⟨?_, ?_, ?_⟩
  · simp only [update_messages_with_prompt]
    cases s.llm_params.messages <;> simp
  · simp [update_messages_with_prompt]
  · simp [update_messages_with_prompt, hrs]

/-- Computes `getLast?` of a cons in terms of the tail's `getLast?`. -/
lemma getLast?_cons_elim (p : String) (rest : List String) :
    (p :: rest).getLast? = (rest.getLast?).elim (some p) some := by
  induction rest generalizing p with
  | nil => rfl
  | cons q t ih =>
    rw [List.getLast?_cons_cons, ih q]
    cases t.getLast? <;> simp

/-- Sequential `invoke` calls starting from a state whose messages are
`some l` append one user message per prompt, in order, and leave the
`prompt` field at the last prompt (or untouched for no prompts). -/
lemma invoke_seq_messages (provider : Provider) (prompts : List String) :
    ∀ (s : LLMState) (l : List ChatMessage),
      s.llm_params.return_sorted = false →
      s.llm_params.messages = some l →
      (invoke_seq provider s prompts).llm_params.messages
          = some (l ++ prompts.map
              (fun p => ({ role := "user", content := p } : ChatMessage))) ∧
      (invoke_seq provider s prompts).llm_params.prompt
          = (prompts.getLast?).elim s.llm_params.prompt some := by
  induction prompts with
  | nil =>
    intro s l hrs hm
    simp [invoke_seq, hm]
  | cons p rest ih =>
    intro s l hrs hm
    have hstep := invoke_step_messages provider s p hrs
    have hseq : invoke_seq provider s (p :: rest)
        = invoke_seq provider ((LLM_call provider s p true []).2) rest := by
      simp [invoke_seq]
    have hmsg : ((LLM_call provider s p true []).2).llm_params.messages
        = some (l ++ [{ role := "user", content := p }]) := by
      rw [hstep.1, hm]
      rfl
    obtain ⟨hA, hB⟩ := ih ((LLM_call provider s p true []).2)
      (l ++ [{ role := "user", content := p }]) hstep.2.2 hmsg
    constructor
    · rw [hseq, hA]
      simp
    · rw [hseq, hB, hstep.2.1, getLast?_cons_elim]
      cases rest.getLast? <;> simp

/-- C6: after N sequential `invoke` calls with prompts p1..pN (N ≥ 1) on a
state with `return_sorted = false`, the configuration's message list is
the pre-existing messages followed by exactly N user-role messages whose
contents are p1..pN in order, and the `prompt` field equals the last
prompt. -/
theorem message_accumulation (provider : Provider) (s : LLMState)
    (prompts : List String)
    (hrs : s.llm_params.return_sorted = false) (hne : prompts ≠ []) :
    (invoke_seq provider s prompts).llm_params.messages
        = some ((s.llm_params.messages.getD [])
            ++ prompts.map
                (fun p => ({ role := "user", content := p } : ChatMessage))) ∧
    (invoke_seq provider s prompts).llm_params.prompt
        = prompts.getLast? := by
  cases prompts with
  | nil => exact absurd rfl hne
  | cons p rest =>
    have hstep := invoke_step_messages provider s p hrs
    have hseq : invoke_seq provider s (p :: rest)
        = invoke_seq provider ((LLM_call provider s p true []).2) rest := by
      simp [invoke_seq]
    obtain ⟨hA, hB⟩ := invoke_seq_messages provider rest
      ((LLM_call provider s p true []).2)
      ((s.llm_params.messages.getD []) ++ [{ role := "user", content := p }])
      hstep.2.2 hstep.1
    constructor
    · rw [hseq, hA]
      simp
    · rw [hseq, hB, hstep.2.1, getLast?_cons_elim]

/-- C6 witness: the accumulation theorem at the concrete fresh state
`sampleState` with two prompts, against `providerOk`. -/
theorem message_accumulation_witness :
    (invoke_seq providerOk sampleState ["p1", "p2"]).llm_params.messages
        = some [{ role := "user", content := "p1" },
                { role := "user", content := "p2" }] ∧
    (invoke_seq providerOk sampleState ["p1", "p2"]).llm_params.prompt
        = some "p2" := by
  have h := message_accumulation providerOk sampleState ["p1", "p2"]
    (by rfl) (by simp)
  exact ⟨by rw [h.1]; rfl, by rw [h.2]; rfl⟩
